import Mathlib

/-!
Verification development for the `featuretools-ts` type-generation pipeline.

This file gives a shallow embedding of the cache/invalidation engine of
`scripts/generate-types.js` and of the plugin host `src/utils/plugin-manager.ts`,
and proves the behavioural properties stated for them.

Modelling conventions:

* The filesystem and process environment visible to one run are collected in a
  `SysState` record (file existence flags, file contents, modification times,
  the discovered stub-file list in discovery order, and the stdout of the
  runtime-version probe).  Modification times and timestamps are `Nat`
  (milliseconds), matching `Date.getTime()` comparisons in the script.
* The MD5 digest is modelled as an idealized collision-free digest: `md5` is
  the identity on the input string.  Every property proved here depends only
  on equality or inequality of digests, which for a collision-free digest
  coincides with equality of the hashed inputs.
* Child-process spawns are tracked as an explicit effect trace
  (`Effect`), and file writes as explicit `WriteOp` values carrying the write
  strategy actually used (`fs.writeFileSync` in place versus write-temp-then-rename).
* Plugin hook handlers may return a new context, return nothing, or throw;
  this is `PluginContext → Except String (Option PluginContext)`.
-/

/-- Idealized collision-free MD5: the digest of a string is the string itself.
Models `crypto.createHash('md5').update(s).digest('hex')` in
`scripts/generate-types.js`; all claims below use digests only up to
equality, so a collision-free digest is faithfully represented by `id`. -/
def md5 (s : String) : String := s

/-- JavaScript `Array.prototype.join('|')` on a list of strings. -/
def joinBar : List String → String
  | [] => ""
  | [x] => x
  | x :: y :: xs => x ++ "|" ++ joinBar (y :: xs)

/-- One entry of the stub-set fingerprint input: the template literal
`` `${file}:${stats.mtime.getTime()}` `` of `scripts/generate-types.js`
(lines 462-466 and 762-766), for a discovered stub file given as a
`(path, mtime)` pair. -/
def stubEntryString (e : String × Nat) : String :=
  e.1 ++ ":" ++ Nat.repr e.2

/-- Sampling of the discovered stub files (discovery order):
`stubFiles.length > 100 ? stubFiles.slice(0, 5).concat(stubFiles.slice(-5)) : stubFiles`
(lines 457-459 and 758-760 of `scripts/generate-types.js`). -/
def sampleStubFiles (files : List (String × Nat)) : List (String × Nat) :=
  if 100 < files.length then files.take 5 ++ files.drop (files.length - 5) else files

/-- The string hashed for the stub-set fingerprint: sampled entries joined
with `'|'` (lines 461-467 of `scripts/generate-types.js`). -/
def stubsHashInput (files : List (String × Nat)) : String :=
  joinBar ((sampleStubFiles files).map stubEntryString)

/-- The stub-set fingerprint `currentStubsHash` / `stubFilesHash`
(lines 469 and 769 of `scripts/generate-types.js`). -/
def computeStubFilesHash (files : List (String × Nat)) : String :=
  md5 (stubsHashInput files)

/-- The persisted cache record written by `updateCache`
(lines 774-781 of `scripts/generate-types.js`).  `lastGenerated` is an
ISO-8601 string in the JSON file; it is compared only through `new Date(...)`,
so it is modelled as the underlying timestamp.  `pythonVersion` is `null`
in JSON when the generation run had no detected version; this is `none`. -/
structure CacheRecord where
  lastGenerated : Nat
  scriptHash : String
  outputHash : String
  stubFilesHash : String
  versionCompatHash : String
  pythonVersion : Option String
  deriving DecidableEq, Repr

/-- Contents of the cache file `.type-cache.json` as seen by a run:
missing, present but not parseable as JSON (`JSON.parse` throws), or a
well-formed record. -/
inductive CacheContent where
  | absent
  | corrupt
  | valid (record : CacheRecord)
  deriving DecidableEq, Repr

/-- Child-process spawns of the source runtime performed by the pipeline.
`spawnVersionProbe` is the `spawnSync(exe, ['-c', 'import sys; ...'])`
version probe of `checkPythonVersion` (lines 63-98 of
`scripts/generate-types.js`); `spawnGenerator` is the
`spawn(exe, [config.pythonScript])` introspection run of `generateTypes`
(line 578). -/
inductive Effect where
  | spawnVersionProbe (exe : String)
  | spawnGenerator (exe : String) (script : String)
  deriving DecidableEq, Repr

/-- How a file write is performed: `inPlace` is a direct
`fs.writeFileSync(path, content)` on the destination path;
`tempRename` would be a write to a temporary file followed by an atomic
rename onto the destination. -/
inductive WriteStrategy where
  | inPlace
  | tempRename
  deriving DecidableEq, Repr

/-- One whole-file write performed by the pipeline. -/
structure WriteOp where
  path : String
  content : String
  strategy : WriteStrategy
  deriving DecidableEq, Repr

/-- Resolved path of the generator script (`config.pythonScript`). -/
def pythonScriptPath : String := "src/python/generate_types.py"

/-- Resolved path of the generated output file (`config.outputFile`). -/
def outputFilePath : String := "src/types/featuretools.ts"

/-- Resolved path of the cache file (`config.cacheFile`). -/
def cacheFilePath : String := ".type-cache.json"

/-- The project-local stub directory `path.resolve(__dirname, '../stubs')`. -/
def projectStubsDir : String := "stubs"

/-- The installed-types directory `path.resolve(__dirname, '../node_modules/@types')`. -/
def nodeTypesDir : String := "node_modules/@types"

/-- The per-user stub directory `path.resolve(os.homedir(), '.local/lib/python3/stubs')`. -/
def userStubsDir : String := ".local/lib/python3/stubs"

/-- The environment and filesystem facts consulted by the stub-directory
resolver `findStubDirectories` (lines 337-362 of `scripts/generate-types.js`). -/
structure StubEnv where
  projectStubsExists : Bool
  nodeTypesExists : Bool
  userStubsExists : Bool
  /-- Value of `process.env.TYPESHED_PATH || process.env.MYPY_CONFIG_FILE_PATH`;
  `none` when both are unset or empty (falsy). -/
  envStubPath : Option String
  /-- Whether `fs.existsSync` holds for that environment-supplied path. -/
  envStubPathExists : Bool
  deriving DecidableEq, Repr

/-- Stub-directory resolution, `findStubDirectories`
(lines 337-362 of `scripts/generate-types.js`): the three well-known
locations are checked first, in their fixed order, and the
environment-supplied path is pushed last. -/
def findStubDirectories (e : StubEnv) : List String :=
  ((if e.projectStubsExists then [projectStubsDir] else []) ++
    (if e.nodeTypesExists then [nodeTypesDir] else []) ++
    (if e.userStubsExists then [userStubsDir] else [])) ++
  (match e.envStubPath with
    | some p => if e.envStubPathExists then [p] else []
    | none => [])

/-- The filesystem / environment state consulted by one run of the
generator pipeline. -/
structure SysState where
  /-- `config.forceRegeneration` (`--force` on the command line). -/
  forceRegeneration : Bool
  /-- `config.pythonExecutable`. -/
  pythonExecutable : String
  /-- Contents of the cache file. -/
  cache : CacheContent
  /-- `fs.existsSync(config.pythonScript)`. -/
  scriptExists : Bool
  /-- Modification time of the generator script. -/
  scriptMtime : Nat
  /-- Contents of the generator script. -/
  scriptContent : String
  /-- `version_compat.py` next to the generator script: `none` when the file
  does not exist, otherwise its `(mtime, content)`. -/
  versionCompat : Option (Nat × String)
  /-- `fs.existsSync(config.outputFile)`. -/
  outputExists : Bool
  /-- Trimmed stdout of the version probe of `config.pythonExecutable`
  (`checkPythonVersion`); `none` when the probe exits non-zero or throws. -/
  probedRaw : Option String
  /-- The `.pyi` files discovered under all resolved stub directories, as
  `(path, mtime)` pairs in discovery order (the recursive directory walk of
  lines 431-451 / 734-754 of `scripts/generate-types.js`). -/
  stubFiles : List (String × Nat)
  deriving DecidableEq, Repr

/-- JavaScript truthiness of a string-or-null value: `null`/`undefined` and
the empty string are falsy. -/
def strTruthy : Option String → Bool
  | none => false
  | some s => s ≠ ""

/-- The runtime-version probe `checkPythonVersion`
(lines 63-98 of `scripts/generate-types.js`): spawns the configured
executable with a `-c` one-liner and returns its trimmed stdout, or `none`
if the probe fails.  The spawn is recorded as an effect. -/
def checkPythonVersion (st : SysState) : Option String × List Effect :=
  (st.probedRaw, [Effect.spawnVersionProbe st.pythonExecutable])

/-- The comparison `pythonVersion && pythonVersion.raw !== cacheData.pythonVersion`
of lines 412-416 of `scripts/generate-types.js`, given the probe result. -/
def pythonVersionChanged (probed : Option String) (cacheData : CacheRecord) : Bool :=
  match probed with
  | some r => decide (cacheData.pythonVersion ≠ some r)
  | none => false

/-- The content-hash checks at the tail of `needsRegeneration`
(lines 482-520 of `scripts/generate-types.js`): generator-script content
hash, `version_compat.py` content hash (only when that file exists), and
finally the PRE_GENERATION plugin hook, whose resulting
`metadata.forceRegeneration` flag is passed in as `pluginForce`. -/
def contentChecks (st : SysState) (cacheData : CacheRecord) (pluginForce : Bool) : Bool :=
  if cacheData.scriptHash ≠ md5 st.scriptContent then true
  else if (match st.versionCompat with
    | some (_, vc) => decide (cacheData.versionCompatHash ≠ md5 vc)
    | none => false) then true
  else pluginForce

/-- The stub-fingerprint check of `needsRegeneration`
(lines 425-480 of `scripts/generate-types.js`): when the cache has a
recorded fingerprint, the freshly computed fingerprint is compared only
if at least one stub file was discovered; when the cache has no recorded
fingerprint (empty string, falsy), regeneration is forced. -/
def stubCheck (st : SysState) (cacheData : CacheRecord) (pluginForce : Bool) : Bool :=
  if cacheData.stubFilesHash = "" then true
  else if 0 < st.stubFiles.length ∧ cacheData.stubFilesHash ≠ computeStubFilesHash st.stubFiles
    then true
  else contentChecks st cacheData pluginForce

/-- The cache check `needsRegeneration` (lines 365-525 of
`scripts/generate-types.js`), with its trace of runtime spawns.  The checks
run in source order: force flag; cache file missing; cache file unparsable
(the thrown `JSON.parse` error is caught by the surrounding `try`, line 521,
and yields `true`); generator script missing; script mtime newer than
`lastGenerated`; `version_compat.py` mtime newer; recorded runtime version
(truthy) differing from a fresh probe; output file missing; stub-set
fingerprint; script content hash; `version_compat.py` content hash; and the
PRE_GENERATION hook's force flag (`pluginForce`). -/
def needsRegeneration (st : SysState) (pluginForce : Bool) : Bool × List Effect :=
  if st.forceRegeneration then (true, [])
  else
    match st.cache with
    | CacheContent.absent => (true, [])
    | CacheContent.corrupt => (true, [])
    | CacheContent.valid cacheData =>
      if ¬ st.scriptExists then (true, [])
      else if cacheData.lastGenerated < st.scriptMtime then (true, [])
      else if (match st.versionCompat with
        | some (m, _) => decide (cacheData.lastGenerated < m)
        | none => false) then (true, [])
      else if strTruthy cacheData.pythonVersion then
        let probe := checkPythonVersion st
        if pythonVersionChanged probe.1 cacheData then (true, probe.2)
        else if ¬ st.outputExists then (true, probe.2)
        else (stubCheck st cacheData pluginForce, probe.2)
      else if ¬ st.outputExists then (true, [])
      else (stubCheck st cacheData pluginForce, [])

/-- Serialization of the cache record,
`JSON.stringify(cacheData, null, 2)` at line 783 of
`scripts/generate-types.js`, up to JSON whitespace: one object holding all
six fields. -/
def serializeCacheRecord (c : CacheRecord) : String :=
  "\x7b\"lastGenerated\":" ++ Nat.repr c.lastGenerated ++
  ",\"scriptHash\":\"" ++ c.scriptHash ++
  "\",\"outputHash\":\"" ++ c.outputHash ++
  "\",\"stubFilesHash\":\"" ++ c.stubFilesHash ++
  "\",\"versionCompatHash\":\"" ++ c.versionCompatHash ++
  "\",\"pythonVersion\":" ++
  (match c.pythonVersion with
    | some s => "\"" ++ s ++ "\""
    | none => "null") ++ "\x7d"

/-- The cache update `updateCache` (lines 712-790 of
`scripts/generate-types.js`): recomputes every field from the current state
and writes the whole record to the cache file with one
`fs.writeFileSync`.  Returns `none` when reading the generator script
throws (script missing): the error is caught and no cache write happens.
`stubFilesHash` is the freshly computed fingerprint when at least one stub
file is discovered, and the empty string otherwise; `versionCompatHash` is
the empty string when `version_compat.py` does not exist. -/
def updateCache (st : SysState) (output : String) (pythonVersion : Option String)
    (now : Nat) : Option (CacheRecord × WriteOp) :=
  if st.scriptExists then
    let record : CacheRecord :=
      { lastGenerated := now
        scriptHash := md5 st.scriptContent
        outputHash := md5 output
        stubFilesHash :=
          if 0 < st.stubFiles.length then computeStubFilesHash st.stubFiles else ""
        versionCompatHash :=
          match st.versionCompat with
          | some (_, vc) => md5 vc
          | none => ""
        pythonVersion := pythonVersion }
    some (record, ⟨cacheFilePath, serializeCacheRecord record, WriteStrategy.inPlace⟩)
  else none

/-- The output write `writeOutput` (lines 691-709 of
`scripts/generate-types.js`): one `fs.writeFileSync(config.outputFile, output)`
of the complete generated text, in place. -/
def writeOutput (output : String) : WriteOp :=
  ⟨outputFilePath, output, WriteStrategy.inPlace⟩

/-- The file writes of the regeneration branch of `main`
(lines 818-826 of `scripts/generate-types.js`): `writeOutput` then
`updateCache`, each once. -/
def successRunWrites (st : SysState) (output : String) (pythonVersion : Option String)
    (now : Nat) : List WriteOp :=
  writeOutput output ::
    (match updateCache st output pythonVersion now with
      | some (_, w) => [w]
      | none => [])

/-- The driver `main` (lines 808-866 of `scripts/generate-types.js`),
restricted to what it spawns and writes: if `needsRegeneration` answers
`true` the introspection subprocess is spawned and the output and cache
files are written; otherwise nothing is spawned beyond the cache check's
own trace and nothing is written.  `output` and `pythonVersion` stand for
the result of `generateTypes` on the regeneration branch. -/
def mainRun (st : SysState) (pluginForce : Bool) (output : String)
    (pythonVersion : Option String) (now : Nat) : Bool × List Effect × List WriteOp :=
  let check := needsRegeneration st pluginForce
  if check.1 then
    (true, check.2 ++ [Effect.spawnGenerator st.pythonExecutable pythonScriptPath],
      successRunWrites st output pythonVersion now)
  else
    (false, check.2, [])

/-- Hook points of the plugin system (`PluginHook` in `src/types/config.ts`). -/
inductive PluginHook where
  | PRE_GENERATION
  | PRE_CONVERSION
  | POST_CONVERSION
  | POST_GENERATION
  | ON_ERROR
  deriving DecidableEq, Repr

/-- A logger value carried in the hook context.  `host` is the plugin
manager's own logger (the `this.logger` object of `PluginManager`);
`custom` stands for any other logger object a plugin may install. -/
inductive Logger where
  | host
  | custom (id : Nat)
  deriving DecidableEq, Repr

/-- The context threaded through plugin hooks (`PluginContext` in
`src/types/config.ts`), restricted to the fields the verified properties
touch: the injected logger, the generated text `tsOutput`, the
`metadata.forceRegeneration` flag, and the per-plugin scratch data
(modelled as a list of strings so plugins can record observations). -/
structure PluginContext where
  logger : Option Logger
  tsOutput : Option String
  forceRegeneration : Bool
  pluginData : List String
  deriving DecidableEq, Repr

/-- A loaded plugin instance, reduced to its hook handler
(`Plugin.onHook` in `src/types/config.ts`).  A handler may return an
updated context (`some`), return nothing (`none`, treated as "no change"),
or throw (`Except.error`). -/
structure Plugin where
  onHook : PluginHook → PluginContext → Except String (Option PluginContext)

/-- A plugin definition as configured (`PluginDefinition` in
`src/types/config.ts`).  `impl` models the outcome of resolving and
instantiating the plugin's module and calling its `initialize`; a load
failure is `Except.error` and is logged and skipped by the manager. -/
structure PluginDefinition where
  name : String
  version : String
  priority : Option Int
  enabled : Option Bool
  impl : Except String Plugin

/-- Effective priority of a definition: `pluginDef.priority ?? 100`
(line 39 of `src/utils/plugin-manager.ts`). -/
def prioOf (d : PluginDefinition) : Int :=
  d.priority.getD 100

/-- The sort at load time,
`[...this.pluginDefs].sort((a, b) => (a.priority ?? 100) - (b.priority ?? 100))`
(lines 38-40 of `src/utils/plugin-manager.ts`).  JavaScript `Array.sort`
is a stable sort consistent with the comparator, which on a total preorder
is extensionally insertion sort. -/
def sortPluginDefs (defs : List PluginDefinition) : List PluginDefinition :=
  List.insertionSort (fun a b => prioOf a ≤ prioOf b) defs

/-- JavaScript `Map.prototype.set` on an association list kept in insertion
order: replacing the value of an existing key keeps its position, a new key
is appended. -/
def mapSet (m : List (String × Plugin)) (k : String) (v : Plugin) :
    List (String × Plugin) :=
  if m.any (fun e => e.1 = k) then
    m.map (fun e => if e.1 = k then (k, v) else e)
  else m ++ [(k, v)]

/-- Plugin loading, `PluginManager.initialize`
(lines 32-60 of `src/utils/plugin-manager.ts`): definitions are sorted by
priority once, disabled definitions (`enabled === false`) are skipped, each
remaining definition's module is loaded, and load failures are logged and
skipped.  The result is the manager's `plugins` map in insertion order. -/
def loadEnabledPlugins (defs : List PluginDefinition) : List (String × Plugin) :=
  (sortPluginDefs defs).foldl
    (fun m d =>
      if d.enabled = some false then m
      else
        match d.impl with
        | Except.ok p => mapSet m d.name p
        | Except.error _ => m)
    []

/-- Whether a definition survives loading: it is not disabled and its
module loads. -/
def loadsOk (d : PluginDefinition) : Bool :=
  decide (d.enabled ≠ some false) &&
    (match d.impl with
      | Except.ok _ => true
      | Except.error _ => false)

/-- The loaded definitions in execution order: the priority-sorted list
restricted to definitions that are enabled and whose module loads. -/
def loadedDefs (defs : List PluginDefinition) : List PluginDefinition :=
  (sortPluginDefs defs).filter loadsOk

/-- The plugin instance of a definition, with an inert fallback for
definitions whose load failed (never used on `loadedDefs`). -/
def pluginOf (d : PluginDefinition) : Plugin :=
  match d.impl with
  | Except.ok p => p
  | Except.error _ => ⟨fun _ _ => Except.ok none⟩

/-- Result of running one hook over the plugin chain: the final context,
the error log (`this.logger.error(...)` calls, one `(plugin name, hook)`
entry per caught handler error), and the names of the plugins whose
handlers were invoked, in invocation order. -/
structure HookRun where
  ctx : PluginContext
  errLog : List (String × PluginHook)
  invoked : List String
  deriving DecidableEq, Repr

/-- One iteration of the `executeHook` loop
(lines 121-137 of `src/utils/plugin-manager.ts`): the plugin's handler is
invoked with the current context; a thrown error is caught and logged with
the plugin's name and the hook name and the context is left as it was; a
`null`/`undefined` result leaves the context unchanged; a returned context
replaces it, with the host logger re-injected if the returned context lacks
one. -/
def hookStep (hook : PluginHook) (acc : HookRun) (entry : String × Plugin) : HookRun :=
  match entry.2.onHook hook acc.ctx with
  | Except.error _ =>
    { acc with
        errLog := acc.errLog ++ [(entry.1, hook)]
        invoked := acc.invoked ++ [entry.1] }
  | Except.ok none =>
    { acc with invoked := acc.invoked ++ [entry.1] }
  | Except.ok (some c) =>
    { ctx := if c.logger.isNone then { c with logger := some Logger.host } else c
      errLog := acc.errLog
      invoked := acc.invoked ++ [entry.1] }

/-- The `executeHook` loop over a given plugins map, starting from a given
working context. -/
def runHooks (plugins : List (String × Plugin)) (hook : PluginHook)
    (ctx : PluginContext) : HookRun :=
  plugins.foldl (hookStep hook) { ctx := ctx, errLog := [], invoked := [] }

/-- Hook execution, `PluginManager.executeHook`
(lines 110-140 of `src/utils/plugin-manager.ts`): the working context is a
copy of the input with the host logger injected, then every plugin in map
order is run through `hookStep`. -/
def executeHook (plugins : List (String × Plugin)) (hook : PluginHook)
    (ctx : PluginContext) : HookRun :=
  runHooks plugins hook { ctx with logger := some Logger.host }

/-- The POST_CONVERSION result handling of `generateTypes`
(lines 631-656 of `scripts/generate-types.js`): on a rejected hook chain
the original output is used; otherwise
`const finalOutput = postContext.tsOutput || output` falls back to the
original output whenever `tsOutput` is absent, `null`, or the empty string. -/
def finalizeOutput (output : String) (postResult : Except String PluginContext) : String :=
  match postResult with
  | Except.error _ => output
  | Except.ok post =>
    match post.tsOutput with
    | some s => if s = "" then output else s
    | none => output

/-- Decimal digit list of a natural number, most significant digit first;
reference implementation used to reason about `Nat.repr`. -/
def digitsOf (n : Nat) : List Char :=
  if h : n < 10 then [Nat.digitChar n]
  else
    have : n / 10 < n := Nat.div_lt_self (by omega) (by omega)
    digitsOf (n / 10) ++ [Nat.digitChar (n % 10)]

/-- Numeric value of a decimal digit string, used to invert `digitsOf`. -/
def digitsVal (l : List Char) : Nat :=
  l.foldl (fun a c => 10 * a + (c.toNat - 48)) 0

instance : IsTotal PluginDefinition (fun a b => prioOf a ≤ prioOf b) :=
  ⟨fun a b => le_total (prioOf a) (prioOf b)⟩

instance : IsTrans PluginDefinition (fun a b => prioOf a ≤ prioOf b) :=
  ⟨fun _ _ _ hab hbc => le_trans hab hbc⟩

/-- A recording plugin used in concrete examples: appends its name to the
shared `pluginData` on every hook. -/
def exRecorder (nm : String) : Plugin :=
  ⟨fun _ c => Except.ok (some { c with pluginData := c.pluginData ++ [nm] })⟩

/-- A plugin whose hook handler always throws. -/
def exThrower : Plugin :=
  ⟨fun _ _ => Except.error "boom"⟩

/-- Example definition with priority 100. -/
def exDef100 : PluginDefinition :=
  { name := "p100", version := "1.0.0", priority := some 100, enabled := none,
    impl := Except.ok (exRecorder "p100") }

/-- Example definition with priority 200. -/
def exDef200 : PluginDefinition :=
  { name := "p200", version := "1.0.0", priority := some 200, enabled := none,
    impl := Except.ok (exRecorder "p200") }

/-- An empty hook context. -/
def exEmptyCtx : PluginContext :=
  { logger := none, tsOutput := none, forceRegeneration := false, pluginData := [] }

/-- Stub files of the concrete example states: a single discovered `.pyi` file. -/
def exStubFiles : List (String × Nat) := [("stubs/featuretools.pyi", 5)]

/-- A concrete baseline state: generator script and output file present, one
stub file discovered, version probe answering `3.8.0`. -/
def exBaseState : SysState :=
  { forceRegeneration := false
    pythonExecutable := "python3"
    cache := CacheContent.absent
    scriptExists := true
    scriptMtime := 10
    scriptContent := "print(types)"
    versionCompat := none
    outputExists := true
    probedRaw := some "3.8.0"
    stubFiles := exStubFiles }

/-- The baseline state with no stub files discovered at all (no stub
directory exists or all are empty). -/
def cxC1State : SysState :=
  { exBaseState with stubFiles := [], probedRaw := none }

/-- The cache record a first successful run over `cxC1State` persists:
no stub files were discovered, so `stubFilesHash` is the empty string. -/
def cxC1Record : CacheRecord :=
  { lastGenerated := 50
    scriptHash := md5 "print(types)"
    outputHash := md5 "OUT"
    stubFilesHash := ""
    versionCompatHash := ""
    pythonVersion := none }

/-- The cache record a first successful run over `exBaseState` persists when
no runtime version was detected. -/
def cxC3Record : CacheRecord :=
  { lastGenerated := 50
    scriptHash := md5 "print(types)"
    outputHash := md5 "OUT"
    stubFilesHash := computeStubFilesHash exStubFiles
    versionCompatHash := ""
    pythonVersion := none }

/-- The cache record a first successful run over `exBaseState` persists when
the resolved runtime version was `3.8.0`. -/
def cxC5Record : CacheRecord :=
  { cxC3Record with pythonVersion := some "3.8.0" }

/-- A stub environment in which the environment-variable stub path is set
and exists, and the project-local stub directory also exists. -/
def cxC6Env : StubEnv :=
  { projectStubsExists := true
    nodeTypesExists := false
    userStubsExists := false
    envStubPath := some "/opt/typeshed"
    envStubPathExists := true }

theorem digitsOf_lt (n : Nat) (h : n < 10) : digitsOf n = [Nat.digitChar n] := by
  rw [digitsOf]
  simp [h]

theorem digitsOf_ge (n : Nat) (h : ¬ n < 10) :
    digitsOf n = digitsOf (n / 10) ++ [Nat.digitChar (n % 10)] := by
  rw [digitsOf]
  simp [h]

theorem toDigitsCore_eq_digitsOf (fuel : Nat) :
    ∀ (n : Nat) (ds : List Char), n < 10 ^ (fuel + 1) →
      Nat.toDigitsCore 10 (fuel + 1) n ds = digitsOf n ++ ds := by
  induction fuel with
  | zero =>
    intro n ds h
    have hd : n / 10 = 0 := Nat.div_eq_of_lt (by simpa using h)
    have hm : n % 10 = n := Nat.mod_eq_of_lt (by simpa using h)
    rw [Nat.toDigitsCore]
    simp [hd, hm, digitsOf_lt n (by simpa using h)]
  | succ fuel ih =>
    intro n ds h
    rw [Nat.toDigitsCore]
    by_cases hz : n / 10 = 0
    · have hn : n < 10 := (Nat.div_eq_zero_iff (by omega)).mp hz
      simp [hz, digitsOf_lt n hn, Nat.mod_eq_of_lt hn]
    · have hb : n / 10 < 10 ^ (fuel + 1) := by
        rw [Nat.div_lt_iff_lt_mul (by omega)]
        calc n < 10 ^ (fuel + 2) := h
        _ = 10 ^ (fuel + 1) * 10 := by rw [pow_succ]
      simp only [hz, if_false]
      rw [ih (n / 10) _ hb]
      have h10 : ¬ n < 10 := by
        intro hlt
        exact hz (Nat.div_eq_of_lt hlt)
      rw [digitsOf_ge n h10]
      simp

theorem natRepr_eq_digitsOf (n : Nat) : Nat.repr n = (digitsOf n).asString := by
  have h : n < 10 ^ (n + 1) := by
    calc n < 10 ^ n := Nat.lt_pow_self (by omega) n
    _ ≤ 10 ^ (n + 1) := Nat.pow_le_pow_right (by omega) (Nat.le_succ n)
  show (Nat.toDigits 10 n).asString = _
  rw [Nat.toDigits, toDigitsCore_eq_digitsOf n n [] h]
  simp

theorem digitChar_toNat_sub (d : Nat) (h : d < 10) : (Nat.digitChar d).toNat - 48 = d := by
  interval_cases d <;> rfl

theorem digitsVal_append_singleton (l : List Char) (c : Char) :
    digitsVal (l ++ [c]) = 10 * digitsVal l + (c.toNat - 48) := by
  simp [digitsVal, List.foldl_append]

theorem digitsVal_digitsOf (n : Nat) : digitsVal (digitsOf n) = n := by
  induction n using Nat.strong_induction_on with
  | _ n ih =>
    by_cases h : n < 10
    · rw [digitsOf_lt n h]
      simp [digitsVal, digitChar_toNat_sub n h]
    · rw [digitsOf_ge n h, digitsVal_append_singleton,
        ih (n / 10) (Nat.div_lt_self (by omega) (by omega)),
        digitChar_toNat_sub (n % 10) (Nat.mod_lt n (by omega))]
      omega

theorem natRepr_injective {m n : Nat} (h : Nat.repr m = Nat.repr n) : m = n := by
  rw [natRepr_eq_digitsOf, natRepr_eq_digitsOf] at h
  have h2 := List.asString_inj.mp h
  have h3 : digitsVal (digitsOf m) = digitsVal (digitsOf n) := by rw [h2]
  rwa [digitsVal_digitsOf, digitsVal_digitsOf] at h3

theorem stringExtData {a b : String} (h : a.data = b.data) : a = b := by
  cases a
  cases b
  cases h
  rfl

theorem stringAppend_left_cancel {a b c : String} (h : a ++ b = a ++ c) : b = c := by
  apply stringExtData
  have h2 := congrArg String.data h
  rw [String.data_append, String.data_append] at h2
  exact List.append_cancel_left h2

theorem stringAppend_right_cancel {a b c : String} (h : a ++ c = b ++ c) : a = b := by
  apply stringExtData
  have h2 := congrArg String.data h
  rw [String.data_append, String.data_append] at h2
  exact List.append_cancel_right h2

theorem joinBar_cons_of_ne_nil (p : String) (l : List String) (h : l ≠ []) :
    joinBar (p :: l) = p ++ "|" ++ joinBar l := by
  cases l with
  | nil => exact absurd rfl h
  | cons y ys => rfl

theorem joinBar_set_ne (L : List String) (i : Nat) (v : String) :
    ∀ (hi : i < L.length), v ≠ L.get ⟨i, hi⟩ → joinBar (L.set i v) ≠ joinBar L := by
  induction L generalizing i with
  | nil => intro hi; exact absurd hi (by simp)
  | cons a as ih =>
    intro hi hv
    cases i with
    | zero =>
      simp only [List.set]
      cases as with
      | nil => simpa [joinBar] using hv
      | cons b bs =>
        intro h
        rw [joinBar_cons_of_ne_nil v _ (by simp), joinBar_cons_of_ne_nil a _ (by simp)] at h
        exact hv (stringAppend_right_cancel (stringAppend_right_cancel h))
    | succ j =>
      have hj : j < as.length := by simpa using hi
      have has : as ≠ [] := by
        intro h
        rw [h] at hj
        simp at hj
      have hset : as.set j v ≠ [] := by
        intro h
        apply has
        have hlen := congrArg List.length h
        rw [List.length_set] at hlen
        exact List.eq_nil_of_length_eq_zero hlen
      simp only [List.set]
      intro h
      rw [joinBar_cons_of_ne_nil a _ hset, joinBar_cons_of_ne_nil a _ has] at h
      exact ih j hj (by simpa using hv) (stringAppend_left_cancel h)

theorem hookStep_invoked (hook : PluginHook) (acc : HookRun) (e : String × Plugin) :
    (hookStep hook acc e).invoked = acc.invoked ++ [e.1] := by
  unfold hookStep
  cases e.2.onHook hook acc.ctx with
  | error msg => rfl
  | ok r => cases r with
    | none => rfl
    | some c => rfl

theorem hookStep_ctx_dep (hook : PluginHook) (acc : HookRun) (e : String × Plugin) :
    (hookStep hook acc e).ctx
      = (hookStep hook { ctx := acc.ctx, errLog := [], invoked := [] } e).ctx := by
  unfold hookStep
  cases e.2.onHook hook acc.ctx with
  | error msg => rfl
  | ok r => cases r with
    | none => rfl
    | some c => rfl

theorem hookStep_errLog (hook : PluginHook) (acc : HookRun) (e : String × Plugin) :
    (hookStep hook acc e).errLog
      = acc.errLog ++ (hookStep hook { ctx := acc.ctx, errLog := [], invoked := [] } e).errLog := by
  unfold hookStep
  cases e.2.onHook hook acc.ctx with
  | error msg => rfl
  | ok r => cases r with
    | none => simp
    | some c => simp

theorem foldl_hookStep_invoked (l : List (String × Plugin)) (hook : PluginHook) :
    ∀ acc : HookRun, (l.foldl (hookStep hook) acc).invoked = acc.invoked ++ l.map Prod.fst := by
  induction l with
  | nil => intro acc; simp
  | cons e es ih =>
    intro acc
    rw [List.foldl_cons, ih, hookStep_invoked]
    simp

theorem foldl_hookStep_ctx (l : List (String × Plugin)) (hook : PluginHook) :
    ∀ acc : HookRun, (l.foldl (hookStep hook) acc).ctx
      = (l.foldl (hookStep hook) { ctx := acc.ctx, errLog := [], invoked := [] }).ctx := by
  induction l with
  | nil => intro acc; rfl
  | cons e es ih =>
    intro acc
    rw [List.foldl_cons, List.foldl_cons]
    rw [ih (hookStep hook acc e),
      ih (hookStep hook { ctx := acc.ctx, errLog := [], invoked := [] } e)]
    rw [hookStep_ctx_dep hook acc e]

theorem runHooks_ctx_eq (l : List (String × Plugin)) (hook : PluginHook) (acc : HookRun) :
    (l.foldl (hookStep hook) acc).ctx = (runHooks l hook acc.ctx).ctx :=
  foldl_hookStep_ctx l hook acc

theorem foldl_hookStep_errLog (l : List (String × Plugin)) (hook : PluginHook) :
    ∀ acc : HookRun, (l.foldl (hookStep hook) acc).errLog
      = acc.errLog ++ (l.foldl (hookStep hook) { ctx := acc.ctx, errLog := [], invoked := [] }).errLog := by
  induction l with
  | nil => intro acc; simp
  | cons e es ih =>
    intro acc
    rw [List.foldl_cons, List.foldl_cons]
    rw [ih (hookStep hook acc e),
      ih (hookStep hook { ctx := acc.ctx, errLog := [], invoked := [] } e)]
    rw [hookStep_errLog hook acc e]
    rw [hookStep_ctx_dep hook acc e]
    simp [List.append_assoc]

theorem logger_invariant (l : List (String × Plugin)) (hook : PluginHook) :
    ∀ acc : HookRun, acc.ctx.logger.isSome = true →
      (l.foldl (hookStep hook) acc).ctx.logger.isSome = true := by
  induction l with
  | nil => intro acc h; exact h
  | cons e es ih =>
    intro acc h
    rw [List.foldl_cons]
    apply ih
    unfold hookStep
    cases e.2.onHook hook acc.ctx with
    | error msg => exact h
    | ok r => cases r with
      | none => exact h
      | some c =>
        cases hl : c.logger with
        | none => simp [hl]
        | some lg => simp [hl]

theorem loadFoldAux (l : List PluginDefinition) :
    ∀ m : List (String × Plugin),
      ((l.filter loadsOk).map (fun d => d.name)).Nodup →
      (∀ d ∈ l, loadsOk d = true → d.name ∉ m.map Prod.fst) →
      l.foldl
        (fun m d =>
          if d.enabled = some false then m
          else
            match d.impl with
            | Except.ok p => mapSet m d.name p
            | Except.error _ => m)
        m
      = m ++ (l.filter loadsOk).map (fun d => (d.name, pluginOf d)) := by
  induction l with
  | nil => intro m _ _; simp
  | cons d ds ih =>
    intro m hn hd
    rw [List.foldl_cons]
    by_cases hok : loadsOk d = true
    · have hen : ¬ d.enabled = some false := by
        intro he
        unfold loadsOk at hok
        simp [he] at hok
      obtain ⟨p, hp⟩ : ∃ p, d.impl = Except.ok p := by
        unfold loadsOk at hok
        cases hi : d.impl with
        | ok p => exact ⟨p, rfl⟩
        | error e => rw [hi] at hok; simp at hok
      have hstep :
          (if d.enabled = some false then m
            else
              match d.impl with
              | Except.ok p => mapSet m d.name p
              | Except.error _ => m)
          = m ++ [(d.name, p)] := by
        rw [if_neg hen, hp]
        unfold mapSet
        have : m.any (fun e => e.1 = d.name) = false := by
          rw [List.any_eq_false]
          intro e he
          intro hcontra
          exact hd d (by simp) hok (by
            simp only [List.mem_map]
            exact ⟨e, he, by simpa using hcontra⟩)
        rw [this]
        simp
    -- filter keeps d
      have hfil : (d :: ds).filter loadsOk = d :: ds.filter loadsOk := by
        rw [List.filter_cons_of_pos hok]
      rw [hstep]
      rw [ih (m ++ [(d.name, p)])]
      · rw [hfil]
        have hpd : pluginOf d = p := by unfold pluginOf; rw [hp]
        simp [hpd, List.append_assoc]
      · rw [hfil] at hn
        exact hn.of_cons
      · intro e he hek
        rw [hfil] at hn
        have hne : e.name ≠ d.name := by
          intro hcontra
          have : d.name ∈ (ds.filter loadsOk).map (fun x => x.name) := by
            rw [← hcontra]
            simp only [List.mem_map]
            exact ⟨e, List.mem_filter.mpr ⟨he, hek⟩, rfl⟩
          exact (List.nodup_cons.mp hn).1 this
        simp only [List.map_append, List.mem_append]
        intro hcontra
        rcases hcontra with hml | hnew
        · exact hd e (by simp [he]) hek hml
        · simp at hnew
          exact hne hnew
    · have hstep :
          (if d.enabled = some false then m
            else
              match d.impl with
              | Except.ok p => mapSet m d.name p
              | Except.error _ => m)
          = m := by
        by_cases hen : d.enabled = some false
        · rw [if_pos hen]
        · rw [if_neg hen]
          cases hi : d.impl with
          | ok p =>
            exfalso
            apply hok
            unfold loadsOk
            simp [hen, hi]
          | error e => rfl
      have hfil : (d :: ds).filter loadsOk = ds.filter loadsOk := by
        rw [List.filter_cons_of_neg (by simpa using hok)]
      rw [hstep, hfil]
      rw [hfil] at hn
      exact ih m hn (fun e he hek => hd e (by simp [he]) hek)

theorem loadEnabledPlugins_eq (defs : List PluginDefinition)
    (hn : ((loadedDefs defs).map (fun d => d.name)).Nodup) :
    loadEnabledPlugins defs = (loadedDefs defs).map (fun d => (d.name, pluginOf d)) := by
  unfold loadEnabledPlugins loadedDefs
  unfold loadedDefs at hn
  rw [loadFoldAux (sortPluginDefs defs) [] hn (by simp)]
  simp

theorem needsRegeneration_eq_stubCheck (st : SysState) (cacheData : CacheRecord)
    (pluginForce : Bool)
    (hforce : st.forceRegeneration = false)
    (hcache : st.cache = CacheContent.valid cacheData)
    (hscript : st.scriptExists = true)
    (hmt : ¬ cacheData.lastGenerated < st.scriptMtime)
    (hvc : ∀ m vc, st.versionCompat = some (m, vc) → ¬ cacheData.lastGenerated < m)
    (hpy : strTruthy cacheData.pythonVersion = true →
      pythonVersionChanged st.probedRaw cacheData = false)
    (hout : st.outputExists = true) :
    (needsRegeneration st pluginForce).1 = stubCheck st cacheData pluginForce := by
  unfold needsRegeneration
  rw [hforce, hcache]
  simp only [Bool.false_eq_true, if_false, hscript, not_true, checkPythonVersion]
  cases hv : st.versionCompat with
  | none =>
    simp only [hmt, if_false]
    by_cases hpv : strTruthy cacheData.pythonVersion
    · simp [hpv, hout, hpy hpv]
    · simp [hpv, hout]
  | some mv =>
    have hm := hvc mv.1 mv.2 (by rw [hv])
    simp only [hmt, if_false, hm, decide_eq_true_eq]
    by_cases hpv : strTruthy cacheData.pythonVersion
    · simp [hpv, hout, hm, hpy hpv]
    · simp [hpv, hout, hm]

theorem stubEntryString_length_pos (e : String × Nat) : 0 < (stubEntryString e).length := by
  unfold stubEntryString
  rw [String.length_append, String.length_append]
  have : (":" : String).length = 1 := rfl
  omega

theorem joinBar_length_pos (x : String) (xs : List String) (hx : 0 < x.length) :
    0 < (joinBar (x :: xs)).length := by
  cases xs with
  | nil => exact hx
  | cons y ys =>
    rw [joinBar_cons_of_ne_nil x _ (by simp)]
    rw [String.length_append, String.length_append]
    omega

theorem computeStubFilesHash_ne_empty (files : List (String × Nat)) (h : files ≠ []) :
    computeStubFilesHash files ≠ "" := by
  have hs : sampleStubFiles files ≠ [] := by
    unfold sampleStubFiles
    split
    · intro hcontra
      have hl := congrArg List.length hcontra
      simp only [List.length_append, List.length_take, List.length_drop, List.length_nil] at hl
      omega
    · exact h
  unfold computeStubFilesHash md5 stubsHashInput
  cases hm : (sampleStubFiles files).map stubEntryString with
  | nil =>
    exact absurd (List.map_eq_nil.mp hm) hs
  | cons c cs =>
    intro hcontra
    have hp : 0 < (joinBar (c :: cs)).length := by
      apply joinBar_length_pos
      have hc : c ∈ (sampleStubFiles files).map stubEntryString := by rw [hm]; simp
      obtain ⟨e, _, he⟩ := List.mem_map.mp hc
      rw [← he]
      exact stubEntryString_length_pos e
    rw [hm, hcontra] at *
    simp at hp

theorem stubEntryString_mtime_ne (p : String) (t t' : Nat) (hne : t' ≠ t) :
    stubEntryString (p, t') ≠ stubEntryString (p, t) := by
  unfold stubEntryString
  intro hcontra
  exact hne (natRepr_injective (stringAppend_left_cancel hcontra))

theorem computeStubFilesHash_touch (files : List (String × Nat)) (i : Nat) (p : String)
    (t t' : Nat) (hi : i < files.length) (hget : files.get ⟨i, hi⟩ = (p, t))
    (hne : t' ≠ t) (hlen : files.length ≤ 100) :
    computeStubFilesHash (files.set i (p, t')) ≠ computeStubFilesHash files := by
  unfold computeStubFilesHash md5 stubsHashInput sampleStubFiles
  have h1 : ¬ 100 < (files.set i (p, t')).length := by rw [List.length_set]; omega
  have h2 : ¬ 100 < files.length := by omega
  rw [if_neg h1, if_neg h2, List.map_set]
  apply joinBar_set_ne
  · have hgm : (files.map stubEntryString).get ⟨i, by simpa using hi⟩
        = stubEntryString (files.get ⟨i, hi⟩) := by
      simp [List.get_map]
    rw [hgm, hget]
    exact stubEntryString_mtime_ne p t t' hne

/-- C8: cache corruption is never fatal.  A cache file whose content cannot
be parsed as JSON is treated exactly like a missing cache file: for every
state and plugin-force flag, `needsRegeneration` on the corrupt-cache state
returns the same result as on the no-cache state, and that result is `true`
(full regeneration).  The parse error is swallowed by the surrounding
`try`/`catch` of `needsRegeneration` (line 521 of
`scripts/generate-types.js`), which is why the modelled function is total
and no error value can escape to the caller. -/
theorem claim_C8_cache_corruption (st : SysState) (pluginForce : Bool) :
    needsRegeneration { st with cache := CacheContent.corrupt } pluginForce
      = needsRegeneration { st with cache := CacheContent.absent } pluginForce
    ∧ (needsRegeneration { st with cache := CacheContent.corrupt } pluginForce).1 = true := by
  unfold needsRegeneration
  by_cases hf : st.forceRegeneration = true
  · simp [hf]
  · simp [hf]

/-- C9: logger invariant.  For every plugin list, hook, and input context,
the context returned by `PluginManager.executeHook` has a defined `logger`
field: the host injects its logger before the first plugin runs and
re-injects it whenever a plugin returns a replacement context lacking one. -/
theorem claim_C9_logger_invariant (plugins : List (String × Plugin)) (hook : PluginHook)
    (ctx : PluginContext) :
    ((executeHook plugins hook ctx).ctx).logger.isSome = true := by
  unfold executeHook runHooks
  exact logger_invariant plugins hook _ rfl

/-- C10: output cannot be blanked by plugins.  After the POST_CONVERSION
hook chain of `generateTypes` (lines 631-656 of `scripts/generate-types.js`),
if the resulting context's `tsOutput` is absent or the empty string, or the
hook chain rejected, the original introspected output is used unchanged;
a plugin can replace the generated text only with a non-empty string. -/
theorem claim_C10_output_fallback (output : String) (postResult : Except String PluginContext) :
    (∀ msg, postResult = Except.error msg → finalizeOutput output postResult = output)
    ∧ (∀ post, postResult = Except.ok post → post.tsOutput = none →
        finalizeOutput output postResult = output)
    ∧ (∀ post, postResult = Except.ok post → post.tsOutput = some "" →
        finalizeOutput output postResult = output)
    ∧ (∀ post s, postResult = Except.ok post → post.tsOutput = some s → s ≠ "" →
        finalizeOutput output postResult = s) := by
  refine ⟨?_, ?_, ?_, ?_⟩
  · intro msg h
    subst h
    rfl
  · intro post h ht
    subst h
    simp [finalizeOutput, ht]
  · intro post h ht
    subst h
    simp [finalizeOutput, ht]
  · intro post s h ht hs
    subst h
    simp [finalizeOutput, ht, hs]

/-- Witness for C10 at concrete inputs: an empty-string `tsOutput` falls
back to the original output, a non-empty one replaces it. -/
theorem claim_C10_witness :
    finalizeOutput "ORIGINAL" (Except.ok { exEmptyCtx with tsOutput := some "" }) = "ORIGINAL"
    ∧ finalizeOutput "ORIGINAL" (Except.ok { exEmptyCtx with tsOutput := some "new" }) = "new" := by
  constructor
  · exact (claim_C10_output_fallback "ORIGINAL" _).2.2.1 _ rfl rfl
  · exact (claim_C10_output_fallback "ORIGINAL" _).2.2.2 _ "new" rfl rfl (by decide)

/-- C6 (amended): stub-directory resolution order.  `findStubDirectories`
pushes the environment-supplied stub path LAST, after the three well-known
locations: whenever the environment path is set and exists it is the last
element of the returned list, and when the project-local directory exists
the list starts with it.  The claim as frozen states the opposite order
(environment override first); `claim_C6_counterexample` refutes that. -/
theorem claim_C6_stub_dir_order (e : StubEnv) (p : String)
    (hp : e.envStubPath = some p) (hex : e.envStubPathExists = true) :
    (findStubDirectories e).getLast? = some p
    ∧ (e.projectStubsExists = true → (findStubDirectories e).head? = some projectStubsDir) := by
  unfold findStubDirectories
  rw [hp]
  simp only [hex, if_true]
  constructor
  · simp
  · intro hproj
    simp [hproj]

/-- Counterexample to C6 as stated: in an environment where the
environment-variable stub path `/opt/typeshed` is set and exists and the
project stub directory also exists, the returned list is
`[projectStubsDir, "/opt/typeshed"]` — the environment path is NOT the
first element, contradicting the claimed env-first order. -/
theorem claim_C6_counterexample :
    findStubDirectories cxC6Env = [projectStubsDir, "/opt/typeshed"]
    ∧ (findStubDirectories cxC6Env).head? ≠ some "/opt/typeshed" := by decide

/-- Witness for C6 (amended) at a concrete environment: the env path is the
last returned directory. -/
theorem claim_C6_witness :
    (findStubDirectories cxC6Env).getLast? = some "/opt/typeshed" :=
  (claim_C6_stub_dir_order cxC6Env "/opt/typeshed" rfl rfl).1

/-- C5 (amended): the only runtime spawn `needsRegeneration` can perform is
the version probe of the configured executable (`checkPythonVersion`,
`spawnSync` at line 65 of `scripts/generate-types.js`); it never spawns the
generator script itself.  The claim as frozen asserts that a no-op run
spawns the runtime not at all; `claim_C5_counterexample` refutes that. -/
theorem claim_C5_noop_effects (st : SysState) (pluginForce : Bool) (e : Effect)
    (he : e ∈ (needsRegeneration st pluginForce).2) :
    e = Effect.spawnVersionProbe st.pythonExecutable := by
  simp only [needsRegeneration, checkPythonVersion] at he
  repeat' split at he
  all_goals simp_all

/-- Counterexample to C5 as stated: a concrete state whose cache record
was produced by a successful run that recorded runtime version `3.8.0`.
The next run's `needsRegeneration` concludes `false` (no-op run) and yet
its effect trace contains a spawn of the Python executable — the
`checkPythonVersion()` call at line 412 of `scripts/generate-types.js` —
contradicting the claim that a no-op run never spawns the runtime. -/
theorem claim_C5_counterexample :
    (updateCache exBaseState "OUT" (some "3.8.0") 50).map Prod.fst = some cxC5Record
    ∧ needsRegeneration { exBaseState with cache := CacheContent.valid cxC5Record } false
      = (false, [Effect.spawnVersionProbe "python3"]) := by decide

/-- Witness for C5 (amended) at a concrete input: the spawned effect in a
cache-hit run's trace is exactly the version probe of the configured
executable. -/
theorem claim_C5_witness :
    Effect.spawnVersionProbe "python3"
      ∈ (needsRegeneration { exBaseState with cache := CacheContent.valid cxC5Record } false).2
    ∧ Effect.spawnVersionProbe "python3"
      = Effect.spawnVersionProbe
          ({ exBaseState with cache := CacheContent.valid cxC5Record } : SysState).pythonExecutable := by
  constructor
  · decide
  · exact claim_C5_noop_effects _ false _ (by decide)

/-- C7 (amended): whole-file writes.  On every successful generation run
the output file and the cache file are each written exactly once, as single
whole-file writes of the complete new content, and the cache record is
rewritten in full with every field recomputed from the current state.  Both
writes are plain in-place `fs.writeFileSync` calls (`WriteStrategy.inPlace`);
no write-temp-then-atomic-rename strategy is used, so the reader-atomicity
asserted by the frozen claim is not provided by the code
(`claim_C7_counterexample`). -/
theorem claim_C7_whole_file_writes (st : SysState) (output : String) (pv : Option String)
    (now : Nat) (record : CacheRecord) (w : WriteOp)
    (hupd : updateCache st output pv now = some (record, w)) :
    successRunWrites st output pv now
      = [⟨outputFilePath, output, WriteStrategy.inPlace⟩,
         ⟨cacheFilePath, serializeCacheRecord record, WriteStrategy.inPlace⟩]
    ∧ record.lastGenerated = now
    ∧ record.scriptHash = md5 st.scriptContent
    ∧ record.outputHash = md5 output
    ∧ record.stubFilesHash
        = (if 0 < st.stubFiles.length then computeStubFilesHash st.stubFiles else "")
    ∧ record.versionCompatHash
        = (match st.versionCompat with | some (_, vc) => md5 vc | none => "")
    ∧ record.pythonVersion = pv := by
  have hupd2 := hupd
  unfold updateCache at hupd2
  by_cases hs : st.scriptExists = true
  · simp only [hs, if_true, Option.some.injEq] at hupd2
    have hrec := congrArg Prod.fst hupd2
    have hw := congrArg Prod.snd hupd2
    simp only at hrec hw
    refine ⟨?_, ?_, ?_, ?_, ?_, ?_, ?_⟩
    · unfold successRunWrites
      rw [hupd, ← hw, ← hrec]
      rfl
    · rw [← hrec]
    · rw [← hrec]
    · rw [← hrec]
    · rw [← hrec]
    · rw [← hrec]
    · rw [← hrec]
  · simp [hs] at hupd2

set_option maxRecDepth 4000 in
/-- Counterexample to C7 as stated: on a concrete successful run, both
file writes use the in-place `fs.writeFileSync` strategy — not an atomic
rename or an equivalent temp-file strategy as the frozen claim asserts. -/
theorem claim_C7_counterexample :
    successRunWrites exBaseState "OUT" (some "3.8.0") 50
      = [⟨outputFilePath, "OUT", WriteStrategy.inPlace⟩,
         ⟨cacheFilePath, serializeCacheRecord cxC5Record, WriteStrategy.inPlace⟩]
    ∧ ((successRunWrites exBaseState "OUT" (some "3.8.0") 50).map WriteOp.strategy)
      = [WriteStrategy.inPlace, WriteStrategy.inPlace] := by decide

set_option maxRecDepth 4000 in
/-- Witness for C7 (amended) at a concrete input: exactly one whole-file
write to the output path and one to the cache path, in that order. -/
theorem claim_C7_witness :
    successRunWrites cxC1State "OUT" none 50
      = [⟨outputFilePath, "OUT", WriteStrategy.inPlace⟩,
         ⟨cacheFilePath, serializeCacheRecord cxC1Record, WriteStrategy.inPlace⟩] :=
  (claim_C7_whole_file_writes cxC1State "OUT" none 50 cxC1Record
    ⟨cacheFilePath, serializeCacheRecord cxC1Record, WriteStrategy.inPlace⟩ (by decide)).1

/-- C1 (amended): idempotence of the pipeline.  For every state with at
least one discovered stub file, in which the script, stub files and probe
answer are unchanged and no force flag or force-setting plugin is present:
a first run from a cache-less state regenerates (`needsRegeneration` is
`true`), and after that run persists its cache record via `updateCache`,
the second run's `needsRegeneration` returns `false` and `mainRun` neither
spawns the generator nor writes any file.  The frozen claim omits the
at-least-one-stub-file proviso; `claim_C1_counterexample` shows the claim
fails without it (the cache stores an empty `stubFilesHash`, which the next
run treats as "no recorded fingerprint" and regenerates, as flagged in the
spec's design-note open question). -/
theorem claim_C1_idempotence (st : SysState) (output : String) (pv : Option String)
    (now : Nat) (record : CacheRecord) (w : WriteOp)
    (hforce : st.forceRegeneration = false)
    (hscript : st.scriptExists = true)
    (hout : st.outputExists = true)
    (hstub : st.stubFiles ≠ [])
    (hmt : st.scriptMtime ≤ now)
    (hvcmt : ∀ m vc, st.versionCompat = some (m, vc) → m ≤ now)
    (hprobe : ∀ s, pv = some s → s ≠ "" → st.probedRaw = none ∨ st.probedRaw = some s)
    (hupd : updateCache st output pv now = some (record, w)) :
    (needsRegeneration { st with cache := CacheContent.absent } false).1 = true
    ∧ (needsRegeneration { st with cache := CacheContent.valid record } false).1 = false
    ∧ mainRun { st with cache := CacheContent.valid record } false output pv now
      = (false, (needsRegeneration { st with cache := CacheContent.valid record } false).2, []) := by
  unfold updateCache at hupd
  simp only [hscript, if_true, Option.some.injEq, Prod.mk.injEq] at hupd
  obtain ⟨hrec, hw⟩ := hupd
  have hlen : 0 < st.stubFiles.length := List.length_pos.mpr hstub
  have hne := computeStubFilesHash_ne_empty st.stubFiles hstub
  have hlast : record.lastGenerated = now := by rw [← hrec]
  have hsh : record.scriptHash = md5 st.scriptContent := by rw [← hrec]
  have hstubh : record.stubFilesHash = computeStubFilesHash st.stubFiles := by
    rw [← hrec]
    simp [hlen]
  have hvch : record.versionCompatHash
      = (match st.versionCompat with | some (_, vc) => md5 vc | none => "") := by
    rw [← hrec]
  have hpyv : record.pythonVersion = pv := by rw [← hrec]
  have h2 : (needsRegeneration { st with cache := CacheContent.valid record } false).1
      = false := by
    rw [needsRegeneration_eq_stubCheck { st with cache := CacheContent.valid record } record false
      hforce rfl hscript
      (by show ¬ record.lastGenerated < st.scriptMtime; rw [hlast]; omega)
      (by
        intro m vc hv
        have := hvcmt m vc hv
        show ¬ record.lastGenerated < m
        rw [hlast]
        omega)
      (by
        intro htr
        rw [hpyv] at htr
        show pythonVersionChanged st.probedRaw record = false
        unfold pythonVersionChanged
        cases hpv : pv with
        | none => rw [hpv] at htr; simp [strTruthy] at htr
        | some s =>
          have hs : s ≠ "" := by rw [hpv] at htr; simpa [strTruthy] using htr
          rcases hprobe s hpv hs with hn | hn
          · rw [hn]
          · rw [hn]
            simp [hpyv, hpv])
      hout]
    cases hv : st.versionCompat with
    | none => simp [stubCheck, contentChecks, hstubh, hsh, hvch, hne, hlen, hv]
    | some mv => simp [stubCheck, contentChecks, hstubh, hsh, hvch, hne, hlen, hv]
  refine ⟨?_, h2, ?_⟩
  · simp [needsRegeneration, hforce]
  · unfold mainRun
    simp only [h2, Bool.false_eq_true, if_false]

/-- Counterexample to C1 as stated: in a state with zero stub files
(nothing changed between runs), the first run persists a cache record with
an empty `stubFilesHash`, and the second run's `needsRegeneration` returns
`true` — not `false` as the frozen claim requires: the pipeline is not
idempotent when no stub files are discovered. -/
theorem claim_C1_counterexample :
    (updateCache cxC1State "OUT" none 50).map Prod.fst = some cxC1Record
    ∧ needsRegeneration { cxC1State with cache := CacheContent.valid cxC1Record } false
      = (true, []) := by decide

set_option maxRecDepth 4000 in
/-- Witness for C1 (amended) at a concrete state with one stub file: the
cache-less run regenerates and the run over the freshly written cache
record does not. -/
theorem claim_C1_witness :
    (needsRegeneration { exBaseState with cache := CacheContent.absent } false).1 = true
    ∧ (needsRegeneration { exBaseState with cache := CacheContent.valid cxC5Record } false).1
      = false := by
  have h := claim_C1_idempotence exBaseState "OUT" (some "3.8.0") 50 cxC5Record
    ⟨cacheFilePath, serializeCacheRecord cxC5Record, WriteStrategy.inPlace⟩
    rfl rfl rfl (by decide) (by decide)
    (fun m vc hv => Option.noConfusion hv)
    (by
      intro s hs hne
      right
      injection hs with h2
      rw [← h2]
      rfl)
    (by decide)
  exact ⟨h.1, h.2.1⟩

/-- C3 (amended): stub-change invalidation.  (1) Touching (changing the
mtime of) any stub file of a fully-sampled set (count at most 100) changes
the computed fingerprint; (2) in a state whose cache record was produced by
`updateCache` over those files, the run after such a touch has
`needsRegeneration` `true`; (3) when the count exceeds 100 the fingerprint
depends only on the first-5 and last-5 files in discovery order.  The
frozen claim asserts that ANY add/remove/touch forces regeneration;
`claim_C3_counterexample` refutes that: removing the last remaining stub
file yields a run in which the stub comparison is skipped entirely and
`needsRegeneration` returns `false`. -/
theorem claim_C3_stub_invalidation :
    (∀ (files : List (String × Nat)) (i : Nat) (p : String) (t t' : Nat)
      (hi : i < files.length), files.get ⟨i, hi⟩ = (p, t) → t' ≠ t → files.length ≤ 100 →
      computeStubFilesHash (files.set i (p, t')) ≠ computeStubFilesHash files)
    ∧ (∀ (st : SysState) (output : String) (pv : Option String) (now : Nat)
        (record : CacheRecord) (w : WriteOp) (i : Nat) (p : String) (t t' : Nat)
        (hi : i < st.stubFiles.length),
        st.forceRegeneration = false → st.scriptExists = true → st.outputExists = true →
        st.stubFiles.length ≤ 100 → st.scriptMtime ≤ now →
        (∀ m vc, st.versionCompat = some (m, vc) → m ≤ now) →
        (∀ s, pv = some s → s ≠ "" → st.probedRaw = none ∨ st.probedRaw = some s) →
        updateCache st output pv now = some (record, w) →
        st.stubFiles.get ⟨i, hi⟩ = (p, t) → t' ≠ t →
        (needsRegeneration
          { st with
            cache := CacheContent.valid record
            stubFiles := st.stubFiles.set i (p, t') } false).1 = true)
    ∧ (∀ (f g : List (String × Nat)), 100 < f.length → 100 < g.length →
        f.take 5 = g.take 5 → f.drop (f.length - 5) = g.drop (g.length - 5) →
        computeStubFilesHash f = computeStubFilesHash g) := by
  refine ⟨?_, ?_, ?_⟩
  · intro files i p t t' hi hget hne hlen
    exact computeStubFilesHash_touch files i p t t' hi hget hne hlen
  · intro st output pv now record w i p t t' hi hforce hscript hout hlen hmt hvcmt hprobe
      hupd hget hne
    have hstub : st.stubFiles ≠ [] := by
      intro hcontra
      rw [hcontra] at hi
      simp at hi
    unfold updateCache at hupd
    simp only [hscript, if_true, Option.some.injEq, Prod.mk.injEq] at hupd
    obtain ⟨hrec, hw⟩ := hupd
    have hlpos : 0 < st.stubFiles.length := List.length_pos.mpr hstub
    have hnemp := computeStubFilesHash_ne_empty st.stubFiles hstub
    have hlast : record.lastGenerated = now := by rw [← hrec]
    have hstubh : record.stubFilesHash = computeStubFilesHash st.stubFiles := by
      rw [← hrec]
      simp [hlpos]
    have hpyv : record.pythonVersion = pv := by rw [← hrec]
    have htouch := computeStubFilesHash_touch st.stubFiles i p t t' hi hget hne hlen
    rw [needsRegeneration_eq_stubCheck
      { st with
        cache := CacheContent.valid record
        stubFiles := st.stubFiles.set i (p, t') }
      record false
      hforce rfl hscript
      (by show ¬ record.lastGenerated < st.scriptMtime; rw [hlast]; omega)
      (by
        intro m vc hv
        have := hvcmt m vc hv
        show ¬ record.lastGenerated < m
        rw [hlast]
        omega)
      (by
        intro htr
        rw [hpyv] at htr
        show pythonVersionChanged st.probedRaw record = false
        unfold pythonVersionChanged
        cases hpv : pv with
        | none => rw [hpv] at htr; simp [strTruthy] at htr
        | some s =>
          have hs : s ≠ "" := by rw [hpv] at htr; simpa [strTruthy] using htr
          rcases hprobe s hpv hs with hn | hn
          · rw [hn]
          · rw [hn]
            simp [hpyv, hpv])
      hout]
    unfold stubCheck
    have hsetlen : 0 < (st.stubFiles.set i (p, t')).length := by
      rw [List.length_set]
      exact hlpos
    have hdiff : record.stubFilesHash ≠ computeStubFilesHash (st.stubFiles.set i (p, t')) := by
      rw [hstubh]
      exact fun hcontra => htouch hcontra.symm
    simp [hstubh, hnemp, hsetlen, hdiff]
    exact Or.inl ⟨hlpos, fun hcontra => htouch hcontra.symm⟩
  · intro f g hf hg htake hdrop
    unfold computeStubFilesHash stubsHashInput sampleStubFiles
    rw [if_pos hf, if_pos hg, htake, hdrop]

/-- Counterexample to C3 as stated: from a cached state with exactly one
stub file, removing that file (so the next run discovers none) does NOT
force regeneration — `needsRegeneration` returns `false`, because the
stub-fingerprint comparison at lines 456-475 of `scripts/generate-types.js`
only runs when at least one stub file is currently discovered. -/
theorem claim_C3_counterexample :
    (updateCache exBaseState "OUT" none 50).map Prod.fst = some cxC3Record
    ∧ needsRegeneration
        { exBaseState with cache := CacheContent.valid cxC3Record, stubFiles := [] } false
      = (false, []) := by decide

/-- Witness for C3 (amended) at a concrete input: touching the single stub
file's mtime changes the fingerprint. -/
theorem claim_C3_witness :
    computeStubFilesHash (exStubFiles.set 0 ("stubs/featuretools.pyi", 6))
      ≠ computeStubFilesHash exStubFiles :=
  claim_C3_stub_invalidation.1 exStubFiles 0 "stubs/featuretools.pyi" 5 6
    (by decide) rfl (by decide) (by decide)

/-- One loop iteration on a handler that throws: the context is kept, the
error is logged with the plugin's name and the hook, the plugin is recorded
as invoked. -/
theorem hookStep_error (hook : PluginHook) (acc : HookRun) (nm : String) (p : Plugin)
    (msg : String) (h : p.onHook hook acc.ctx = Except.error msg) :
    hookStep hook acc (nm, p)
      = { acc with errLog := acc.errLog ++ [(nm, hook)], invoked := acc.invoked ++ [nm] } := by
  unfold hookStep
  rw [h]

/-- C2: plugin failure isolation.  For every hook, every plugin chain, and
every plugin whose handler throws on the context it receives: the thrown
error is caught inside `executeHook` (the result type carries no error, so
nothing propagates to the caller), the error is logged with that plugin's
name and the hook name, every plugin before and after it is still invoked
exactly once in order, and the chain continues from the last good context
— the final context is exactly what running the remaining plugins on the
pre-failure context yields. -/
theorem claim_C2_plugin_isolation (pre post : List (String × Plugin)) (nm : String)
    (p : Plugin) (hook : PluginHook) (ctx : PluginContext) (msg : String)
    (herr : p.onHook hook
        (runHooks pre hook { ctx with logger := some Logger.host }).ctx
      = Except.error msg) :
    (executeHook (pre ++ (nm, p) :: post) hook ctx).ctx
      = (runHooks post hook
          (runHooks pre hook { ctx with logger := some Logger.host }).ctx).ctx
    ∧ (executeHook (pre ++ (nm, p) :: post) hook ctx).invoked
      = pre.map Prod.fst ++ nm :: post.map Prod.fst
    ∧ (nm, hook) ∈ (executeHook (pre ++ (nm, p) :: post) hook ctx).errLog := by
  unfold executeHook runHooks
  rw [List.foldl_append, List.foldl_cons]
  unfold runHooks at herr
  rw [hookStep_error hook _ nm p msg herr]
  refine ⟨?_, ?_, ?_⟩
  · rw [foldl_hookStep_ctx]
  · rw [foldl_hookStep_invoked, foldl_hookStep_invoked]
    simp
  · rw [foldl_hookStep_errLog]
    simp

/-- Witness for C2 at a concrete input: an always-throwing plugin followed
by a well-behaved plugin; both are invoked and the error is logged. -/
theorem claim_C2_witness :
    (executeHook ([] ++ ("bad", exThrower) :: [("good", exRecorder "good")])
        PluginHook.PRE_GENERATION exEmptyCtx).invoked = ["bad", "good"]
    ∧ ("bad", PluginHook.PRE_GENERATION)
      ∈ (executeHook ([] ++ ("bad", exThrower) :: [("good", exRecorder "good")])
          PluginHook.PRE_GENERATION exEmptyCtx).errLog := by
  have h := claim_C2_plugin_isolation [] [("good", exRecorder "good")] "bad" exThrower
    PluginHook.PRE_GENERATION exEmptyCtx "boom" rfl
  exact ⟨h.2.1, h.2.2⟩

/-- C4: plugin ordering.  For every definition list whose loaded plugin
names are distinct, `executeHook` invokes the loaded plugins' handlers in
the order of the priority-sorted definition list (missing priorities
default to the mid-range value 100), whose priorities are pairwise
ascending; in particular for two plugins with priorities 200 and 100 the
priority-100 handler runs first, as observed through the side effects
recorded in the shared context. -/
theorem claim_C4_plugin_ordering (defs : List PluginDefinition) (hook : PluginHook)
    (ctx : PluginContext)
    (hn : ((loadedDefs defs).map (fun d => d.name)).Nodup) :
    (executeHook (loadEnabledPlugins defs) hook ctx).invoked
      = (loadedDefs defs).map (fun d => d.name)
    ∧ ((loadedDefs defs).map prioOf).Pairwise (fun a b => a ≤ b)
    ∧ (executeHook (loadEnabledPlugins [exDef200, exDef100]) hook exEmptyCtx).ctx.pluginData
      = ["p100", "p200"] := by
  refine ⟨?_, ?_, ?_⟩
  · unfold executeHook runHooks
    rw [foldl_hookStep_invoked]
    rw [loadEnabledPlugins_eq defs hn]
    simp [List.map_map]
  · have hs : List.Sorted (fun a b => prioOf a ≤ prioOf b) (sortPluginDefs defs) :=
      List.sorted_insertionSort (fun a b => prioOf a ≤ prioOf b) defs
    have hp : (loadedDefs defs).Pairwise (fun a b => prioOf a ≤ prioOf b) :=
      hs.filter loadsOk
    exact List.pairwise_map.mpr hp
  · rfl

/-- Witness for C4 at concrete inputs: plugins declared in order
`[200, 100]` execute as `[100, 200]`. -/
theorem claim_C4_witness :
    (executeHook (loadEnabledPlugins [exDef200, exDef100]) PluginHook.POST_CONVERSION
        exEmptyCtx).invoked
      = (loadedDefs [exDef200, exDef100]).map (fun d => d.name)
    ∧ (executeHook (loadEnabledPlugins [exDef200, exDef100]) PluginHook.POST_CONVERSION
        exEmptyCtx).ctx.pluginData
      = ["p100", "p200"] := by
  have h := claim_C4_plugin_ordering [exDef200, exDef100] PluginHook.POST_CONVERSION
    exEmptyCtx (by decide)
  exact ⟨h.1, h.2.2⟩
